import Mathlib

/-!
# Verification of the Survey application core (src/app.py)

This file gives a shallow embedding of the Flask survey application in
`src/app.py` and proves (or refutes) the properties claimed by its
specification.

The embedding models:

* JSON values (`JVal`) together with the serialization used by the app for
  the `Question.options` and `Response.response_data` text columns
  (`json.dumps` / `json.loads`), including the default Python separators
  `", "` and `": "`;
* the database rows (`User` is not needed; `Survey`, `Question`, `Response`)
  and the database itself (`Store`), with autoincrementing primary keys;
* the API operations `get_survey`, `update_survey`, `delete_survey`,
  `create_question`, `update_question`, `delete_question` and
  `submit_response`, each as a total function from the caller's resolved
  session identity (`Option Nat`), the request data and the store to an
  `Except Err` result.

Errors model the HTTP error responses of the app.  Every error return in
the source occurs before any `db.session` mutation is committed (the one
mid-commit failure, in `delete_survey`, rolls the transaction back), so an
error result leaves the store unmodified and the `Except Err (Store × α)`
result type is faithful.
-/

/-! ## Characters used by the JSON encoding

Braces, quote and backslash are written via `Char.ofNat` with their ASCII
codes (123 and 125 are the curly braces, 34 the double quote, 92 the
backslash, 10/9/13 are newline, tab and carriage return). -/

def quoteC : Char := Char.ofNat 34

def bslashC : Char := Char.ofNat 92

def lbraceC : Char := Char.ofNat 123

def rbraceC : Char := Char.ofNat 125

def nlC : Char := Char.ofNat 10

def tabC : Char := Char.ofNat 9

def crC : Char := Char.ofNat 13

/-- Text is modelled as a list of characters, so that the JSON
serialization can be reasoned about by structural induction. -/
abbrev Str := List Char

/-! ## JSON values

`JVal` models the values handled by Python's `json` module as used by the
app: `request.get_json()` payloads and the `options` lists.  Arrays and
objects are separate mutual types so that structural recursion and
induction stay elementary.  Object fields form an ordered association list
(Python `dict`s preserve insertion order and `json.dumps` is called with
`sort_keys=False`). -/

mutual

inductive JVal where
  | null : JVal
  | bool (b : Bool) : JVal
  | num (n : Int) : JVal
  | str (s : Str) : JVal
  | arr (a : JArr) : JVal
  | obj (o : JObj) : JVal
deriving DecidableEq

inductive JArr where
  | nil : JArr
  | cons (hd : JVal) (tl : JArr) : JArr
deriving DecidableEq

inductive JObj where
  | nil : JObj
  | cons (key : Str) (val : JVal) (tl : JObj) : JObj
deriving DecidableEq

end

/-! ## Serialization: the model of `json.dumps`

Python's `json.dumps` with default arguments separates array/object items
with a comma and a space and keys from values with a colon and a space.
String escaping is modelled for the quote, the backslash and the common
control characters newline, tab and carriage return; other characters are
emitted verbatim (Python additionally escapes the remaining control and
non-ASCII characters, which does not affect any round-trip property since
both encodings are decoded by the same `loads`). -/

def digitChar (d : Nat) : Char := Char.ofNat (48 + d)

/-- The decimal digits of `n`, most significant first. -/
def natDigits (n : Nat) : List Nat :=
  if _h : n < 10 then [n]
  else natDigits (n / 10) ++ [n % 10]
termination_by n
decreasing_by exact Nat.div_lt_self (by omega) (by omega)

def dumpNat (n : Nat) : Str := (natDigits n).map digitChar

/-- Decimal rendering of an integer, as `json.dumps` prints Python ints. -/
def dumpInt (n : Int) : Str :=
  if n < 0 then '-' :: dumpNat n.natAbs else dumpNat n.natAbs

/-- Escaping of a single character inside a JSON string literal. -/
def escChar (c : Char) : Str :=
  if c = quoteC then [bslashC, quoteC]
  else if c = bslashC then [bslashC, bslashC]
  else if c = nlC then [bslashC, 'n']
  else if c = tabC then [bslashC, 't']
  else if c = crC then [bslashC, 'r']
  else [c]

def escStr : Str → Str
  | [] => []
  | c :: cs => escChar c ++ escStr cs

mutual

/-- The model of `json.dumps` (default separators). -/
def JVal.dumps : JVal → Str
  | .null => "null".data
  | .bool b => if b then "true".data else "false".data
  | .num n => dumpInt n
  | .str s => quoteC :: (escStr s ++ [quoteC])
  | .arr .nil => ['[', ']']
  | .arr (.cons x xs) => '[' :: (JVal.dumps x ++ (JVal.dumpsArr xs ++ [']']))
  | .obj .nil => [lbraceC, rbraceC]
  | .obj (.cons k v t) =>
      lbraceC :: (quoteC :: (escStr k ++ (quoteC :: ':' :: ' ' ::
        (JVal.dumps v ++ (JVal.dumpsObj t ++ [rbraceC])))))

/-- Rendering of the tail of a JSON array: a leading `", "` per element. -/
def JVal.dumpsArr : JArr → Str
  | .nil => []
  | .cons x xs => ',' :: ' ' :: (JVal.dumps x ++ JVal.dumpsArr xs)

/-- Rendering of the tail of a JSON object: a leading `", "` per field. -/
def JVal.dumpsObj : JObj → Str
  | .nil => []
  | .cons k v t =>
      ',' :: ' ' :: (quoteC :: (escStr k ++ (quoteC :: ':' :: ' ' ::
        (JVal.dumps v ++ JVal.dumpsObj t))))

end

/-! ## Deserialization: the model of `json.loads`

A fuel-indexed recursive-descent parser for exactly the grammar emitted by
`JVal.dumps`.  The fuel bounds the nesting depth; `JVal.loads` supplies
more than enough fuel for its input. -/

mutual

/-- Size of a JSON value: an upper bound for the parser fuel it needs. -/
def JVal.sz : JVal → Nat
  | .arr a => 1 + JArr.szA a
  | .obj o => 1 + JObj.szO o
  | _ => 1

def JArr.szA : JArr → Nat
  | .nil => 0
  | .cons x t => 1 + JVal.sz x + JArr.szA t

def JObj.szO : JObj → Nat
  | .nil => 0
  | .cons _ v t => 1 + JVal.sz v + JObj.szO t

end

/-- Removes an exact expected prefix from the input. -/
def stripPre : Str → Str → Option Str
  | [], l => some l
  | _ :: _, [] => none
  | k :: ks, c :: cs => if c = k then stripPre ks cs else none

/-- Reverses `unescChar`s effect for the characters `escChar` escapes. -/
def unescChar (e : Char) : Char :=
  if e = 'n' then nlC
  else if e = 't' then tabC
  else if e = 'r' then crC
  else e

/-- Parses a JSON string body (after the opening quote) up to and including
the closing quote, undoing the escaping. -/
def pStr : Str → Option (Str × Str)
  | [] => none
  | c :: cs =>
    if c = quoteC then some ([], cs)
    else if c = bslashC then
      match cs with
      | [] => none
      | e :: cs2 =>
        match pStr cs2 with
        | some (s, r) => some (unescChar e :: s, r)
        | none => none
    else
      match pStr cs with
      | some (s, r) => some (c :: s, r)
      | none => none

def digitVal (c : Char) : Nat := c.toNat - 48

/-- Consumes a maximal run of decimal digits, folding them onto `a`. -/
def pNatAcc (a : Nat) : Str → Nat × Str
  | [] => (a, [])
  | c :: cs => if c.isDigit then pNatAcc (10 * a + digitVal c) cs else (a, c :: cs)

/-- Tests whether the input starts with the character `k`. -/
def headIs (k : Char) : Str → Bool
  | [] => false
  | c :: _ => c = k

/-- Tests whether the input starts with a decimal digit. -/
def headDigit : Str → Bool
  | [] => false
  | c :: _ => c.isDigit

mutual

/-- Parses one JSON value from the head of the input. -/
def pVal : Nat → Str → Option (JVal × Str)
  | 0, _ => none
  | _ + 1, [] => none
  | fuel + 1, c :: cs =>
    if c = 'n' then
      match stripPre ['u', 'l', 'l'] cs with
      | some r => some (.null, r)
      | none => none
    else if c = 't' then
      match stripPre ['r', 'u', 'e'] cs with
      | some r => some (.bool true, r)
      | none => none
    else if c = 'f' then
      match stripPre ['a', 'l', 's', 'e'] cs with
      | some r => some (.bool false, r)
      | none => none
    else if c = quoteC then
      match pStr cs with
      | some (s, r) => some (.str s, r)
      | none => none
    else if c = '-' then
      if headDigit cs then
        some (.num (-((pNatAcc 0 cs).1 : Int)), (pNatAcc 0 cs).2)
      else none
    else if c.isDigit then
      some (.num ((pNatAcc 0 (c :: cs)).1 : Int), (pNatAcc 0 (c :: cs)).2)
    else if c = '[' then
      if headIs ']' cs then some (.arr .nil, cs.tail)
      else
        match pVal fuel cs with
        | some (x, r) =>
          match pArr fuel r with
          | some (xs, r2) => some (.arr (.cons x xs), r2)
          | none => none
        | none => none
    else if c = lbraceC then
      if headIs rbraceC cs then some (.obj .nil, cs.tail)
      else if headIs quoteC cs then
        match pStr cs.tail with
        | some (k, r) =>
          match r with
          | c3 :: c4 :: r2 =>
            if c3 = ':' ∧ c4 = ' ' then
              match pVal fuel r2 with
              | some (v, r3) =>
                match pObj fuel r3 with
                | some (t, r4) => some (.obj (.cons k v t), r4)
                | none => none
              | none => none
            else none
          | _ => none
        | none => none
      else none
    else none

/-- Parses the tail of a JSON array: `", " value`s up to the closing
bracket. -/
def pArr : Nat → Str → Option (JArr × Str)
  | 0, _ => none
  | _ + 1, [] => none
  | fuel + 1, c :: cs =>
    if c = ']' then some (.nil, cs)
    else if c = ',' then
      if headIs ' ' cs then
        match pVal fuel cs.tail with
        | some (x, r) =>
          match pArr fuel r with
          | some (xs, r2) => some (.cons x xs, r2)
          | none => none
        | none => none
      else none
    else none

/-- Parses the tail of a JSON object: `", " key ": " value`s up to the
closing brace. -/
def pObj : Nat → Str → Option (JObj × Str)
  | 0, _ => none
  | _ + 1, [] => none
  | fuel + 1, c :: cs =>
    if c = rbraceC then some (.nil, cs)
    else if c = ',' then
      if headIs ' ' cs then
        if headIs quoteC cs.tail then
          match pStr cs.tail.tail with
          | some (k, r) =>
            match r with
            | c4 :: c5 :: r2 =>
              if c4 = ':' ∧ c5 = ' ' then
                match pVal fuel r2 with
                | some (v, r3) =>
                  match pObj fuel r3 with
                  | some (t, r4) => some (.cons k v t, r4)
                  | none => none
                | none => none
              else none
            | _ => none
          | none => none
        else none
      else none
    else none

end

/-- The model of `json.loads`: parses a complete JSON document. -/
def JVal.loads (l : Str) : Option JVal :=
  match pVal (l.length + 1) l with
  | some (j, []) => some j
  | _ => none

/-! ## Round-trip of the store's JSON encoding -/

/-- The input does not begin with a decimal digit (so a parsed number ends
exactly where the printed number did). -/
def headNotDigit : Str → Prop
  | [] => True
  | c :: _ => c.isDigit = false

theorem stripPre_append (k rest : Str) : stripPre k (k ++ rest) = some rest := by
  induction k with
  | nil => rfl
  | cons c cs ih => simp [stripPre, ih]

theorem pStr_escStr (s rest : Str) :
    pStr (escStr s ++ (quoteC :: rest)) = some (s, rest) := by
  induction s with
  | nil =>
    show pStr (quoteC :: rest) = some ([], rest)
    rw [pStr.eq_def]
    simp
  | cons c cs ih =>
    show pStr ((escChar c ++ escStr cs) ++ (quoteC :: rest)) = some (c :: cs, rest)
    by_cases h1 : c = quoteC
    · subst h1
      have e1 : escChar quoteC = [bslashC, quoteC] := by simp [escChar]
      rw [e1]
      simp only [List.cons_append, List.nil_append, List.append_assoc]
      rw [pStr.eq_def]
      simp [show ¬ bslashC = quoteC by decide, ih, unescChar,
        show ¬ quoteC = 'n' by decide, show ¬ quoteC = 't' by decide,
        show ¬ quoteC = 'r' by decide]
    · by_cases h2 : c = bslashC
      · subst h2
        have e1 : escChar bslashC = [bslashC, bslashC] := by
          simp [escChar, show ¬ bslashC = quoteC by decide]
        rw [e1]
        simp only [List.cons_append, List.nil_append, List.append_assoc]
        rw [pStr.eq_def]
        simp [show ¬ bslashC = quoteC by decide, ih, unescChar,
          show ¬ bslashC = 'n' by decide, show ¬ bslashC = 't' by decide,
          show ¬ bslashC = 'r' by decide]
      · by_cases h3 : c = nlC
        · subst h3
          have e1 : escChar nlC = [bslashC, 'n'] := by
            simp [escChar, show ¬ nlC = quoteC by decide,
              show ¬ nlC = bslashC by decide]
          rw [e1]
          simp only [List.cons_append, List.nil_append, List.append_assoc]
          rw [pStr.eq_def]
          simp [show ¬ bslashC = quoteC by decide, ih, unescChar]
        · by_cases h4 : c = tabC
          · subst h4
            have e1 : escChar tabC = [bslashC, 't'] := by
              simp [escChar, show ¬ tabC = quoteC by decide,
                show ¬ tabC = bslashC by decide, show ¬ tabC = nlC by decide]
            rw [e1]
            simp only [List.cons_append, List.nil_append, List.append_assoc]
            rw [pStr.eq_def]
            simp [show ¬ bslashC = quoteC by decide, ih, unescChar,
              show ('t' = 'n') = False by decide]
          · by_cases h5 : c = crC
            · subst h5
              have e1 : escChar crC = [bslashC, 'r'] := by
                simp [escChar, show ¬ crC = quoteC by decide,
                  show ¬ crC = bslashC by decide, show ¬ crC = nlC by decide,
                  show ¬ crC = tabC by decide]
              rw [e1]
              simp only [List.cons_append, List.nil_append, List.append_assoc]
              rw [pStr.eq_def]
              simp [show ¬ bslashC = quoteC by decide, ih, unescChar,
                show ('r' = 'n') = False by decide, show ('r' = 't') = False by decide]
            · have e1 : escChar c = [c] := by simp [escChar, h1, h2, h3, h4, h5]
              rw [e1]
              simp only [List.cons_append, List.nil_append, List.append_assoc]
              rw [pStr.eq_def]
              simp [h1, h2, ih]

theorem natDigits_lt (n : Nat) : ∀ d ∈ natDigits n, d < 10 := by
  induction n using Nat.strong_induction_on with
  | _ n ih =>
    rw [natDigits]
    split
    · next h => intro d hd; simp only [List.mem_singleton] at hd; omega
    · next h =>
      intro d hd
      rw [List.mem_append] at hd
      rcases hd with hd | hd
      · exact ih (n / 10) (Nat.div_lt_self (by omega) (by omega)) d hd
      · simp only [List.mem_singleton] at hd
        have := Nat.mod_lt n (show 0 < 10 by omega)
        omega

theorem natDigits_ne_nil (n : Nat) : natDigits n ≠ [] := by
  rw [natDigits]
  split
  · simp
  · simp

/-- The value of a digit string read most-significant-first onto an
accumulator. -/
def digitsVal (a : Nat) : List Nat → Nat
  | [] => a
  | d :: ds => digitsVal (10 * a + d) ds

theorem digitsVal_append (xs : List Nat) (a d : Nat) :
    digitsVal a (xs ++ [d]) = 10 * digitsVal a xs + d := by
  induction xs generalizing a with
  | nil => simp [digitsVal]
  | cons x xs ih => simp [digitsVal, ih]

theorem digitsVal_natDigits (n : Nat) : ∀ a : Nat,
    digitsVal a (natDigits n) = a * 10 ^ (natDigits n).length + n := by
  induction n using Nat.strong_induction_on with
  | _ n ih =>
    intro a
    rw [natDigits]
    split
    · next h => simp [digitsVal]; omega
    · next h =>
      rw [digitsVal_append, ih (n / 10) (Nat.div_lt_self (by omega) (by omega)) a]
      have hm : 10 * (n / 10) + n % 10 = n := Nat.div_add_mod n 10
      simp only [List.length_append, List.length_singleton]
      calc 10 * (a * 10 ^ (natDigits (n / 10)).length + n / 10) + n % 10
          = a * (10 ^ (natDigits (n / 10)).length * 10) + (10 * (n / 10) + n % 10) := by
            ring
        _ = a * 10 ^ ((natDigits (n / 10)).length + 1) + n := by
            rw [pow_succ, hm]

theorem digitChar_isDigit (d : Nat) (hd : d < 10) : (digitChar d).isDigit = true := by
  interval_cases d <;> decide

theorem digitVal_digitChar (d : Nat) (hd : d < 10) : digitVal (digitChar d) = d := by
  interval_cases d <;> decide

theorem digitChar_ne (d : Nat) (hd : d < 10) :
    digitChar d ≠ 'n' ∧ digitChar d ≠ 't' ∧ digitChar d ≠ 'f' ∧
    digitChar d ≠ quoteC ∧ digitChar d ≠ '-' ∧ digitChar d ≠ ']' := by
  interval_cases d <;> exact ⟨by decide, by decide, by decide, by decide, by decide, by decide⟩

theorem pNatAcc_map (ds : List Nat) : ∀ a : Nat, ∀ rest : Str,
    (∀ d ∈ ds, d < 10) → headNotDigit rest →
    pNatAcc a (ds.map digitChar ++ rest) = (digitsVal a ds, rest) := by
  induction ds with
  | nil =>
    intro a rest _ hr
    cases rest with
    | nil => simp [pNatAcc, digitsVal]
    | cons c t =>
      simp only [headNotDigit] at hr
      simp [pNatAcc, digitsVal, hr]
  | cons d ds ih =>
    intro a rest hds hr
    have hd : d < 10 := hds d (by simp)
    simp only [List.map_cons, List.cons_append, pNatAcc,
      digitChar_isDigit d hd, if_pos, digitVal_digitChar d hd, digitsVal]
    exact ih _ rest (fun x hx => hds x (by simp [hx])) hr

theorem pNatAcc_dumpNat (n : Nat) (rest : Str) (hr : headNotDigit rest) :
    pNatAcc 0 (dumpNat n ++ rest) = (n, rest) := by
  unfold dumpNat
  rw [pNatAcc_map (natDigits n) 0 rest (natDigits_lt n) hr]
  simp [digitsVal_natDigits n 0]

theorem dumpNat_shape (n : Nat) : ∃ d t, dumpNat n = digitChar d :: t ∧ d < 10 := by
  have h1 := natDigits_ne_nil n
  have h2 := natDigits_lt n
  cases hnd : natDigits n with
  | nil => exact absurd hnd h1
  | cons d ds =>
    refine ⟨d, ds.map digitChar, by simp [dumpNat, hnd], h2 d (by rw [hnd]; simp)⟩

theorem dumps_head (j : JVal) : ∃ c t, JVal.dumps j = c :: t ∧ c ≠ ']' := by
  cases j with
  | null => exact ⟨'n', _, rfl, by decide⟩
  | bool b =>
    cases b with
    | false => exact ⟨'f', _, rfl, by decide⟩
    | true => exact ⟨'t', _, rfl, by decide⟩
  | num n =>
    by_cases hn : n < 0
    · exact ⟨'-', dumpNat n.natAbs, by simp [JVal.dumps, dumpInt, hn], by decide⟩
    · obtain ⟨d, t, hshape, hd⟩ := dumpNat_shape n.natAbs
      exact ⟨digitChar d, t, by simp [JVal.dumps, dumpInt, hn, hshape],
        (digitChar_ne d hd).2.2.2.2.2⟩
  | str s => exact ⟨quoteC, _, rfl, by decide⟩
  | arr a =>
    cases a with
    | nil => exact ⟨'[', _, rfl, by decide⟩
    | cons x xs => exact ⟨'[', _, rfl, by decide⟩
  | obj o =>
    cases o with
    | nil => exact ⟨lbraceC, _, rfl, by decide⟩
    | cons k v t => exact ⟨lbraceC, _, rfl, by decide⟩

theorem hnd_arrTail (xs : JArr) (rest : Str) :
    headNotDigit (JVal.dumpsArr xs ++ (']' :: rest)) := by
  cases xs with
  | nil => simp [JVal.dumpsArr, headNotDigit]
  | cons x t => simp [JVal.dumpsArr, headNotDigit]

theorem hnd_objTail (t : JObj) (rest : Str) :
    headNotDigit (JVal.dumpsObj t ++ (rbraceC :: rest)) := by
  cases t with
  | nil => simp [JVal.dumpsObj, headNotDigit]; decide
  | cons k v t2 => simp [JVal.dumpsObj, headNotDigit]

theorem sz_pos (j : JVal) : 1 ≤ JVal.sz j := by
  cases j <;> simp [JVal.sz]

mutual

/-- Parsing is a left inverse of serialization: `pVal` recovers any dumped
value exactly, leaving the remaining input untouched. -/
theorem pVal_dumps (j : JVal) : ∀ fuel rest, JVal.sz j ≤ fuel → headNotDigit rest →
    pVal fuel (JVal.dumps j ++ rest) = some (j, rest) := by
  intro fuel rest hf hr
  cases fuel with
  | zero => exact absurd hf (by have := sz_pos j; omega)
  | succ f =>
    cases j with
    | null =>
      show pVal (f + 1) ((['n', 'u', 'l', 'l'] : Str) ++ rest) = some (.null, rest)
      rw [pVal.eq_def]
      simp [stripPre]
    | bool b =>
      cases b with
      | true =>
        show pVal (f + 1) ((['t', 'r', 'u', 'e'] : Str) ++ rest) = some (.bool true, rest)
        rw [pVal.eq_def]
        simp [stripPre, show ('t' = 'n') = False by decide]
      | false =>
        show pVal (f + 1) ((['f', 'a', 'l', 's', 'e'] : Str) ++ rest) =
          some (.bool false, rest)
        rw [pVal.eq_def]
        simp [stripPre, show ('f' = 'n') = False by decide,
          show ('f' = 't') = False by decide]
    | num n =>
      by_cases hn : n < 0
      · have hd : pNatAcc 0 (dumpNat n.natAbs ++ rest) = (n.natAbs, rest) :=
          pNatAcc_dumpNat n.natAbs rest hr
        obtain ⟨d, t, hshape, hdlt⟩ := dumpNat_shape n.natAbs
        have hhd : headDigit (dumpNat n.natAbs ++ rest) = true := by
          rw [hshape]
          simp [headDigit, digitChar_isDigit d hdlt]
        show pVal (f + 1) (dumpInt n ++ rest) = some (.num n, rest)
        rw [dumpInt, if_pos hn, List.cons_append, pVal.eq_def]
        simp [show ('-' = 'n') = False by decide, show ('-' = 't') = False by decide,
          show ('-' = 'f') = False by decide, show ('-' = quoteC) = False by decide,
          hhd, hd]
        rw [abs_of_neg hn, neg_neg]
      · have hd : pNatAcc 0 (dumpNat n.natAbs ++ rest) = (n.natAbs, rest) :=
          pNatAcc_dumpNat n.natAbs rest hr
        obtain ⟨d, t, hshape, hdlt⟩ := dumpNat_shape n.natAbs
        have hne := digitChar_ne d hdlt
        show pVal (f + 1) (dumpInt n ++ rest) = some (.num n, rest)
        rw [dumpInt, if_neg hn]
        rw [hshape] at hd ⊢
        rw [List.cons_append] at hd ⊢
        rw [pVal.eq_def]
        simp [hne.1, hne.2.1, hne.2.2.1, hne.2.2.2.1, hne.2.2.2.2.1,
          digitChar_isDigit d hdlt, hd]
        omega
    | str s =>
      show pVal (f + 1) ((quoteC :: (escStr s ++ [quoteC])) ++ rest) = some (.str s, rest)
      rw [List.cons_append, pVal.eq_def]
      simp [show (quoteC = 'n') = False by decide, show (quoteC = 't') = False by decide,
        show (quoteC = 'f') = False by decide, show (quoteC.isDigit) = false by decide,
        show (quoteC = '-') = False by decide, pStr_escStr]
    | arr a =>
      cases a with
      | nil =>
        show pVal (f + 1) ((['[', ']'] : Str) ++ rest) = some (.arr .nil, rest)
        rw [pVal.eq_def]
        simp [headIs, show ('[' = 'n') = False by decide,
          show ('[' = 't') = False by decide, show ('[' = 'f') = False by decide,
          show ('[' = quoteC) = False by decide, show ('[' = '-') = False by decide,
          show ('['.isDigit) = false by decide]
      | cons x xs =>
        have hszx : JVal.sz x ≤ f := by
          simp only [JVal.sz, JArr.szA] at hf; omega
        have hsza : JArr.szA xs + 1 ≤ f := by
          simp only [JVal.sz, JArr.szA] at hf; omega
        have hx : pVal f (JVal.dumps x ++ (JVal.dumpsArr xs ++ (']' :: rest))) =
            some (x, JVal.dumpsArr xs ++ (']' :: rest)) :=
          pVal_dumps x f _ hszx (hnd_arrTail xs rest)
        have ha : pArr f (JVal.dumpsArr xs ++ (']' :: rest)) = some (xs, rest) :=
          pArr_dumps xs f rest hsza
        obtain ⟨c0, t0, hshape, hc0⟩ := dumps_head x
        have hhead : headIs ']' (JVal.dumps x ++ (JVal.dumpsArr xs ++ (']' :: rest))) =
            false := by
          rw [hshape]
          simp [headIs, hc0]
        show pVal (f + 1)
          (('[' :: (JVal.dumps x ++ (JVal.dumpsArr xs ++ [']']))) ++ rest) =
          some (.arr (.cons x xs), rest)
        rw [List.cons_append, pVal.eq_def]
        simp only [List.append_assoc, List.cons_append, List.nil_append]
        simp [show ('[' = 'n') = False by decide, show ('[' = 't') = False by decide,
          show ('[' = 'f') = False by decide, show ('[' = quoteC) = False by decide,
          show ('[' = '-') = False by decide, show ('['.isDigit) = false by decide,
          hhead, hx, ha]
    | obj o =>
      cases o with
      | nil =>
        show pVal (f + 1) (([lbraceC, rbraceC] : Str) ++ rest) = some (.obj .nil, rest)
        rw [pVal.eq_def]
        simp [headIs, show (lbraceC = 'n') = False by decide,
          show (lbraceC = 't') = False by decide, show (lbraceC = 'f') = False by decide,
          show (lbraceC = quoteC) = False by decide,
          show (lbraceC = '-') = False by decide,
          show (lbraceC.isDigit) = false by decide,
          show (lbraceC = '[') = False by decide]
      | cons k v t =>
        have hszv : JVal.sz v ≤ f := by
          simp only [JVal.sz, JObj.szO] at hf; omega
        have hszo : JObj.szO t + 1 ≤ f := by
          simp only [JVal.sz, JObj.szO] at hf; omega
        have hv : pVal f (JVal.dumps v ++ (JVal.dumpsObj t ++ (rbraceC :: rest))) =
            some (v, JVal.dumpsObj t ++ (rbraceC :: rest)) :=
          pVal_dumps v f _ hszv (hnd_objTail t rest)
        have ht : pObj f (JVal.dumpsObj t ++ (rbraceC :: rest)) = some (t, rest) :=
          pObj_dumps t f rest hszo
        have hk : pStr (escStr k ++
            (quoteC :: (':' :: ' ' ::
              (JVal.dumps v ++ (JVal.dumpsObj t ++ (rbraceC :: rest)))))) =
            some (k, ':' :: ' ' ::
              (JVal.dumps v ++ (JVal.dumpsObj t ++ (rbraceC :: rest)))) :=
          pStr_escStr k _
        show pVal (f + 1)
          ((lbraceC :: (quoteC :: (escStr k ++ (quoteC :: ':' :: ' ' ::
            (JVal.dumps v ++ (JVal.dumpsObj t ++ [rbraceC])))))) ++ rest) =
          some (.obj (.cons k v t), rest)
        rw [List.cons_append, pVal.eq_def]
        simp only [List.append_assoc, List.cons_append, List.nil_append]
        simp [headIs, show (lbraceC = 'n') = False by decide,
          show (lbraceC = 't') = False by decide, show (lbraceC = 'f') = False by decide,
          show (lbraceC = quoteC) = False by decide,
          show (lbraceC = '-') = False by decide,
          show (lbraceC.isDigit) = false by decide,
          show (lbraceC = '[') = False by decide,
          show (quoteC = rbraceC) = False by decide, hk, hv, ht]

/-- Parsing the rendered tail of an array recovers its elements. -/
theorem pArr_dumps (a : JArr) : ∀ fuel rest, JArr.szA a + 1 ≤ fuel →
    pArr fuel (JVal.dumpsArr a ++ (']' :: rest)) = some (a, rest) := by
  intro fuel rest hf
  cases fuel with
  | zero => exact absurd hf (Nat.not_succ_le_zero _)
  | succ f =>
    cases a with
    | nil =>
      show pArr (f + 1) ((([] : Str)) ++ (']' :: rest)) = some (.nil, rest)
      rw [List.nil_append, pArr.eq_def]
      simp
    | cons x xs =>
      have hszx : JVal.sz x ≤ f := by
        simp only [JArr.szA] at hf; omega
      have hsza : JArr.szA xs + 1 ≤ f := by
        simp only [JArr.szA] at hf; omega
      have hx : pVal f (JVal.dumps x ++ (JVal.dumpsArr xs ++ (']' :: rest))) =
          some (x, JVal.dumpsArr xs ++ (']' :: rest)) :=
        pVal_dumps x f _ hszx (hnd_arrTail xs rest)
      have ha : pArr f (JVal.dumpsArr xs ++ (']' :: rest)) = some (xs, rest) :=
        pArr_dumps xs f rest hsza
      show pArr (f + 1)
        ((',' :: ' ' :: (JVal.dumps x ++ JVal.dumpsArr xs)) ++ (']' :: rest)) =
        some (.cons x xs, rest)
      rw [List.cons_append, List.cons_append, pArr.eq_def]
      simp only [List.append_assoc]
      simp [headIs, show (',' = ']') = False by decide, hx, ha]

/-- Parsing the rendered tail of an object recovers its fields. -/
theorem pObj_dumps (o : JObj) : ∀ fuel rest, JObj.szO o + 1 ≤ fuel →
    pObj fuel (JVal.dumpsObj o ++ (rbraceC :: rest)) = some (o, rest) := by
  intro fuel rest hf
  cases fuel with
  | zero => exact absurd hf (Nat.not_succ_le_zero _)
  | succ f =>
    cases o with
    | nil =>
      show pObj (f + 1) ((([] : Str)) ++ (rbraceC :: rest)) = some (.nil, rest)
      rw [List.nil_append, pObj.eq_def]
      simp
    | cons k v t =>
      have hszv : JVal.sz v ≤ f := by
        simp only [JObj.szO] at hf; omega
      have hszo : JObj.szO t + 1 ≤ f := by
        simp only [JObj.szO] at hf; omega
      have hv : pVal f (JVal.dumps v ++ (JVal.dumpsObj t ++ (rbraceC :: rest))) =
          some (v, JVal.dumpsObj t ++ (rbraceC :: rest)) :=
        pVal_dumps v f _ hszv (hnd_objTail t rest)
      have ht : pObj f (JVal.dumpsObj t ++ (rbraceC :: rest)) = some (t, rest) :=
        pObj_dumps t f rest hszo
      have hk : pStr (escStr k ++
          (quoteC :: (':' :: ' ' ::
            (JVal.dumps v ++ (JVal.dumpsObj t ++ (rbraceC :: rest)))))) =
          some (k, ':' :: ' ' ::
            (JVal.dumps v ++ (JVal.dumpsObj t ++ (rbraceC :: rest)))) :=
        pStr_escStr k _
      show pObj (f + 1)
        ((',' :: ' ' :: (quoteC :: (escStr k ++ (quoteC :: ':' :: ' ' ::
          (JVal.dumps v ++ JVal.dumpsObj t))))) ++ (rbraceC :: rest)) =
        some (.cons k v t, rest)
      rw [List.cons_append, List.cons_append, pObj.eq_def]
      simp only [List.append_assoc, List.cons_append]
      simp [headIs, show (',' = rbraceC) = False by decide,
        show (quoteC = rbraceC) = False by decide, hk, hv, ht]

end

mutual

/-- The serialized form is at least as long as the size bound needs. -/
theorem sz_le_dumps (j : JVal) : JVal.sz j ≤ (JVal.dumps j).length := by
  cases j with
  | null => decide
  | bool b => cases b <;> decide
  | num n =>
    have h1 := natDigits_ne_nil n.natAbs
    have h2 : 1 ≤ (dumpNat n.natAbs).length := by
      unfold dumpNat
      cases hnd : natDigits n.natAbs with
      | nil => exact absurd hnd h1
      | cons d ds => simp
    by_cases hn : n < 0
    · simp only [JVal.sz, JVal.dumps, dumpInt, if_pos hn, List.length_cons]
      omega
    · simp only [JVal.sz, JVal.dumps, dumpInt, if_neg hn]
      omega
  | str s => simp [JVal.sz, JVal.dumps]
  | arr a =>
    cases a with
    | nil => simp [JVal.sz, JVal.dumps, JArr.szA]
    | cons x xs =>
      have h1 := sz_le_dumps x
      have h2 := szA_le_dumpsArr xs
      simp [JVal.sz, JVal.dumps, JArr.szA]
      omega
  | obj o =>
    cases o with
    | nil => simp [JVal.sz, JVal.dumps, JObj.szO]
    | cons k v t =>
      have h1 := sz_le_dumps v
      have h2 := szO_le_dumpsObj t
      simp [JVal.sz, JVal.dumps, JObj.szO]
      omega

theorem szA_le_dumpsArr (a : JArr) : JArr.szA a ≤ (JVal.dumpsArr a).length := by
  cases a with
  | nil => simp [JArr.szA, JVal.dumpsArr]
  | cons x xs =>
    have h1 := sz_le_dumps x
    have h2 := szA_le_dumpsArr xs
    simp [JArr.szA, JVal.dumpsArr]
    omega

theorem szO_le_dumpsObj (o : JObj) : JObj.szO o ≤ (JVal.dumpsObj o).length := by
  cases o with
  | nil => simp [JObj.szO, JVal.dumpsObj]
  | cons k v t =>
    have h1 := sz_le_dumps v
    have h2 := szO_le_dumpsObj t
    simp [JObj.szO, JVal.dumpsObj]
    omega

end

/-- The store's JSON encoding round-trips: `json.loads` recovers exactly
what `json.dumps` wrote.  This is the serialization-boundary property the
spec demands for `Question.options` and `Response.answers`. -/
theorem loads_dumps (j : JVal) : JVal.loads (JVal.dumps j) = some j := by
  unfold JVal.loads
  have h := pVal_dumps j ((JVal.dumps j).length + 1) []
    (le_trans (sz_le_dumps j) (by omega)) (by constructor)
  rw [List.append_nil] at h
  rw [h]

/-- A dumped JSON document is never the empty string (so the `options`
column written by `create_question` is always truthy in Python). -/
theorem dumps_ne_nil (j : JVal) : JVal.dumps j ≠ [] := by
  obtain ⟨c, t, hshape, _⟩ := dumps_head j
  simp [hshape]

/-! ## The data model (src/app.py lines 30-56)

Rows of the three tables the claims concern.  Timestamps are abstract
clock readings (`Nat`); each mutating operation receives the current time
`now` where the source calls `datetime.utcnow()`.  Field names follow the
source (`user_id` is the owner column of `Survey` and the optional
respondent column of `Response`; `options` and `response_data` are JSON
*text* columns, exactly as in the source). -/

structure Survey where
  id : Nat
  title : Str
  description : Str
  status : Str
  created_at : Nat
  updated_at : Nat
  user_id : Nat
deriving DecidableEq

structure Question where
  id : Nat
  survey_id : Nat
  type : Str
  text : Str
  description : Str
  required : Bool
  options : Str
  order : Int
deriving DecidableEq

structure Response where
  id : Nat
  survey_id : Nat
  user_id : Option Nat
  response_data : Str
  created_at : Nat
deriving DecidableEq

/-- The database.  Lists keep table insertion order (SQLite returns rows of
an unordered query in rowid order); `nextQuestionId` / `nextResponseId`
model the autoincrementing primary keys. -/
structure Store where
  surveys : List Survey
  questions : List Question
  responses : List Response
  nextQuestionId : Nat
  nextResponseId : Nat
deriving DecidableEq

/-- The error kinds of the API, as surfaced by the source:
`Unauthenticated` is the 401 returned when no session identity exists,
`Forbidden` the 403 for a non-owner, `NotFound` the `get_or_404` 404,
`InvalidState` the 400 "Survey is not active", `InternalError` an
unhandled exception (500).  `ValidationError` is the kind the spec's
taxonomy names for malformed input; the source never produces it. -/
inductive Err where
  | Unauthenticated : Err
  | Forbidden : Err
  | NotFound : Err
  | ValidationError : Err
  | InvalidState : Err
  | InternalError : Err
deriving DecidableEq

def findSurvey (st : Store) (sid : Nat) : Option Survey :=
  st.surveys.find? (fun s => s.id == sid)

def findQuestion (st : Store) (qid : Nat) : Option Question :=
  st.questions.find? (fun q => q.id == qid)

def findResponse (st : Store) (rid : Nat) : Option Response :=
  st.responses.find? (fun r => r.id == rid)

/-- The rows the `survey.questions` relationship returns: the survey's
questions in table order — the relationship declares no `order_by`. -/
def surveyQuestions (st : Store) (sid : Nat) : List Question :=
  st.questions.filter (fun q => q.survey_id == sid)

def surveyHasResponses (st : Store) (sid : Nat) : Bool :=
  st.responses.any (fun r => r.survey_id == sid)

def activeS : Str := "active".data

/-! ## Request bodies and response DTOs

`Option` fields mirror `data.get(key, default)`: `none` means the key is
absent from the request JSON. -/

structure UpdateSurveyReq where
  title : Option Str
  description : Option Str
  status : Option Str
deriving DecidableEq

structure CreateQuestionReq where
  type : Str
  text : Str
  description : Option Str
  required : Option Bool
  options : Option JVal
  order : Option Int
deriving DecidableEq

structure UpdateQuestionReq where
  type : Option Str
  text : Option Str
  description : Option Str
  required : Option Bool
  options : Option JVal
  order : Option Int
deriving DecidableEq

/-- One question as rendered by `get_survey`: the `options` key is present
only when the options column is truthy (a non-empty string). -/
structure QuestionDTO where
  id : Nat
  type : Str
  text : Str
  description : Str
  required : Bool
  order : Int
  options : Option JVal
deriving DecidableEq

structure SurveyDTO where
  id : Nat
  title : Str
  description : Str
  status : Str
  created_at : Nat
  updated_at : Nat
  questions : List QuestionDTO
deriving DecidableEq

/-- The body `update_survey` echoes back. -/
structure SurveyOut where
  id : Nat
  title : Str
  description : Str
  status : Str
  updated_at : Nat
deriving DecidableEq

/-- The body `create_question` / `update_question` echo back; here a falsy
options column renders as the empty list rather than an absent key. -/
structure QuestionOut where
  id : Nat
  type : Str
  text : Str
  description : Str
  required : Bool
  options : JVal
  order : Int
deriving DecidableEq

/-- `json.loads(q.options)` guarded by truthiness, as in `get_survey`; a
corrupt column raises (500). -/
def buildQuestionDTO (q : Question) : Except Err QuestionDTO :=
  if q.options = [] then
    .ok ⟨q.id, q.type, q.text, q.description, q.required, q.order, none⟩
  else
    match JVal.loads q.options with
    | some j => .ok ⟨q.id, q.type, q.text, q.description, q.required, q.order, some j⟩
    | none => .error .InternalError

def buildQuestionDTOs : List Question → Except Err (List QuestionDTO)
  | [] => .ok []
  | q :: qs =>
    match buildQuestionDTO q with
    | .ok d =>
      match buildQuestionDTOs qs with
      | .ok ds => .ok (d :: ds)
      | .error e => .error e
    | .error e => .error e

/-- `json.loads(x) if x else []`, the options echo of the question
endpoints. -/
def echoOptions (o : Str) : Except Err JVal :=
  if o = [] then .ok (.arr .nil)
  else
    match JVal.loads o with
    | some j => .ok j
    | none => .error .InternalError

/-! ## The API operations

Each operation follows the source line by line: session check first
(401), then `get_or_404`, then the ownership comparison (403), then the
work.  An error result models an HTTP error response; every error is
raised before the session commit (or, for `delete_survey`'s integrity
failure, rolls it back), so the store is returned only on success. -/

/-- Model of `get_survey` (src/app.py lines 166-200).  The question DTOs
are built in the order the `survey.questions` relationship yields —
insertion order, since the relationship declares no `order_by`. -/
def get_survey (caller : Option Nat) (survey_id : Nat) (st : Store) :
    Except Err SurveyDTO :=
  match caller with
  | none => .error .Unauthenticated
  | some u =>
    match findSurvey st survey_id with
    | none => .error .NotFound
    | some survey =>
      if survey.user_id ≠ u then .error .Forbidden
      else
        match buildQuestionDTOs (surveyQuestions st survey_id) with
        | .ok qs => .ok ⟨survey.id, survey.title, survey.description, survey.status,
            survey.created_at, survey.updated_at, qs⟩
        | .error e => .error e

/-- Model of `update_survey` (src/app.py lines 202-227): each field is
`data.get(key, current value)`, `updated_at` is set to `utcnow()`
unconditionally, and the row is persisted. -/
def update_survey (caller : Option Nat) (survey_id : Nat) (data : UpdateSurveyReq)
    (now : Nat) (st : Store) : Except Err (Store × SurveyOut) :=
  match caller with
  | none => .error .Unauthenticated
  | some u =>
    match findSurvey st survey_id with
    | none => .error .NotFound
    | some survey =>
      if survey.user_id ≠ u then .error .Forbidden
      else
        let s2 : Survey := { survey with
          title := data.title.getD survey.title
          description := data.description.getD survey.description
          status := data.status.getD survey.status
          updated_at := now }
        .ok ({ st with surveys := st.surveys.map (fun t => if t.id == survey_id then s2 else t) },
          ⟨s2.id, s2.title, s2.description, s2.status, s2.updated_at⟩)

/-- Model of `delete_survey` (src/app.py lines 229-242).  The
`Survey.questions` relationship carries `cascade="all, delete-orphan"`
(line 38), so the survey's questions are deleted with it.  The
`Survey.responses` relationship (line 39) declares no delete cascade, so
on deletion SQLAlchemy nullifies `Response.survey_id` during the flush;
that column is `nullable=False` (line 53), hence the flush raises
`IntegrityError` whenever the survey has any response, the transaction
rolls back, and the request fails as an unhandled 500. -/
def delete_survey (caller : Option Nat) (survey_id : Nat) (st : Store) :
    Except Err (Store × Unit) :=
  match caller with
  | none => .error .Unauthenticated
  | some u =>
    match findSurvey st survey_id with
    | none => .error .NotFound
    | some survey =>
      if survey.user_id ≠ u then .error .Forbidden
      else if surveyHasResponses st survey_id then .error .InternalError
      else .ok ({ st with
        surveys := st.surveys.filter (fun t => t.id != survey_id)
        questions := st.questions.filter (fun t => t.survey_id != survey_id) }, ())

/-- Model of `create_question` (src/app.py lines 245-278).  No validation
of any kind is performed on `type`, `text`, `options` or `order`; the
options are stored as `json.dumps(data.get('options', []))`.  The echo's
decode happens after the commit and cannot fail because the column was
just written by `json.dumps` (see `loads_dumps`). -/
def create_question (caller : Option Nat) (survey_id : Nat) (data : CreateQuestionReq)
    (st : Store) : Except Err (Store × QuestionOut) :=
  match caller with
  | none => .error .Unauthenticated
  | some u =>
    match findSurvey st survey_id with
    | none => .error .NotFound
    | some survey =>
      if survey.user_id ≠ u then .error .Forbidden
      else
        let q : Question := {
          id := st.nextQuestionId
          survey_id := survey_id
          type := data.type
          text := data.text
          description := data.description.getD []
          required := data.required.getD false
          options := JVal.dumps (data.options.getD (.arr .nil))
          order := data.order.getD 0 }
        match echoOptions q.options with
        | .ok oj => .ok ({ st with
            questions := st.questions ++ [q]
            nextQuestionId := st.nextQuestionId + 1 },
            ⟨q.id, q.type, q.text, q.description, q.required, oj, q.order⟩)
        | .error e => .error e

/-- Model of `update_question` (src/app.py lines 280-309).  Ownership is
checked through `question.survey.user_id` (a missing parent survey would
raise, hence `InternalError`).  Each field merges
`data.get(key, current value)`; for options the Python default expression
`json.loads(question.options) if question.options else []` is evaluated
eagerly even when the request supplies options, so a corrupt column
raises regardless.  No re-validation of the merged result occurs. -/
def update_question (caller : Option Nat) (question_id : Nat) (data : UpdateQuestionReq)
    (st : Store) : Except Err (Store × QuestionOut) :=
  match caller with
  | none => .error .Unauthenticated
  | some u =>
    match findQuestion st question_id with
    | none => .error .NotFound
    | some question =>
      match findSurvey st question.survey_id with
      | none => .error .InternalError
      | some survey =>
        if survey.user_id ≠ u then .error .Forbidden
        else
          match echoOptions question.options with
          | .error e => .error e
          | .ok fallback =>
            let q2 : Question := { question with
              type := data.type.getD question.type
              text := data.text.getD question.text
              description := data.description.getD question.description
              required := data.required.getD question.required
              options := JVal.dumps (data.options.getD fallback)
              order := data.order.getD question.order }
            match echoOptions q2.options with
            | .ok oj => .ok ({ st with
                questions := st.questions.map (fun t => if t.id == question_id then q2 else t) },
                ⟨q2.id, q2.type, q2.text, q2.description, q2.required, oj, q2.order⟩)
            | .error e => .error e

/-- Model of `delete_question` (src/app.py lines 311-324); authorization as
in `update_question`, then the row is deleted (no renumbering, no effect
on responses). -/
def delete_question (caller : Option Nat) (question_id : Nat) (st : Store) :
    Except Err (Store × Unit) :=
  match caller with
  | none => .error .Unauthenticated
  | some u =>
    match findQuestion st question_id with
    | none => .error .NotFound
    | some question =>
      match findSurvey st question.survey_id with
      | none => .error .InternalError
      | some survey =>
        if survey.user_id ≠ u then .error .Forbidden
        else .ok ({ st with questions := st.questions.filter (fun t => t.id != question_id) }, ())

/-- Model of `submit_response` (src/app.py lines 327-345): no session
check at all; `get_or_404`; the 400 `InvalidState` guard on any non-active
status; then the row is written with `user_id = session.get('user_id')`
(absent for an anonymous caller) and `response_data = json.dumps(data)`,
and only the fresh id is returned. -/
def submit_response (caller : Option Nat) (survey_id : Nat) (data : JVal) (now : Nat)
    (st : Store) : Except Err (Store × Nat) :=
  match findSurvey st survey_id with
  | none => .error .NotFound
  | some survey =>
    if survey.status ≠ activeS then .error .InvalidState
    else
      .ok ({ st with
        responses := st.responses ++ [{
          id := st.nextResponseId
          survey_id := survey_id
          user_id := caller
          response_data := JVal.dumps data
          created_at := now }]
        nextResponseId := st.nextResponseId + 1 }, st.nextResponseId)

/-- Modelled from the spec: the repository exposes no endpoint that reads a
stored Response back (`submit_response` returns only the identifier and no
list/get route for responses exists in src/app.py), while §8 of the spec
speaks of using the returned identifier to fetch the survey's responses.
Following §4.5/§6, the fetch resolves the Response row by id and decodes
its `response_data` with the store's JSON decoding (`json.loads`). -/
def fetchResponseAnswers (st : Store) (rid : Nat) : Option JVal :=
  match findResponse st rid with
  | some r => JVal.loads r.response_data
  | none => none

/-- Specification-side ordering (from the spec's words, §4.4
`listQuestions`): `(order, id)` ascending, ties on `order` broken by `id`
ascending. -/
def qKeyLe (a b : QuestionDTO) : Bool :=
  decide (a.order < b.order) || (a.order == b.order && decide (a.id ≤ b.id))

/-- Specification-side predicate: the DTO sequence is sorted by
`(order, id)` ascending. -/
def sortedByOrderId : List QuestionDTO → Bool
  | a :: b :: t => qKeyLe a b && sortedByOrderId (b :: t)
  | _ => true

/-! ## General lemmas about the store operations -/

/-- `find?` over a map that rewrites exactly the matching elements to `r`
finds `r` whenever it found anything before. -/
theorem find?_map_update {α : Type} (p : α → Bool) (f : α → α) (r : α) (l : List α)
    (hf : ∀ t, p t = true → f t = r) (hn : ∀ t, p t = false → f t = t)
    (hr : p r = true) (s : α) (h : l.find? p = some s) :
    (l.map f).find? p = some r := by
  induction l with
  | nil => simp [List.find?] at h
  | cons a l ih =>
    cases ha : p a with
    | true =>
      simp only [List.map_cons, List.find?, hf a ha, hr]
    | false =>
      rw [List.find?_cons_of_neg _ (by simp [ha])] at h
      simp only [List.map_cons, hn a ha]
      rw [List.find?_cons_of_neg _ (by simp [ha])]
      exact ih h

/-- `find?` for a different key is unaffected by a map that only rewrites
elements the key does not match. -/
theorem find?_map_frame {α : Type} (q : α → Bool) (f : α → α) (l : List α)
    (hq : ∀ t, q (f t) = q t) (hid : ∀ t, q t = true → f t = t) :
    (l.map f).find? q = l.find? q := by
  induction l with
  | nil => simp
  | cons a l ih =>
    cases ha : q a with
    | true => simp only [List.map_cons, List.find?, hq a, ha, hid a ha]
    | false =>
      simp only [List.map_cons, List.find?, hq a, ha]
      exact ih

/-- `find?` over an appended fresh element: if nothing in the prefix
matches, the fresh element is found. -/
theorem find?_append_fresh {α : Type} (p : α → Bool) (l : List α) (x : α)
    (hl : ∀ y ∈ l, p y = false) (hx : p x = true) :
    (l ++ [x]).find? p = some x := by
  induction l with
  | nil => simp [List.find?, hx]
  | cons a l ih =>
    rw [List.cons_append, List.find?_cons_of_neg _ (by simp [hl a (by simp)])]
    exact ih (fun y hy => hl y (by simp [hy]))

/-- The only error `buildQuestionDTO` can produce is the 500 of a corrupt
options column. -/
theorem buildQuestionDTO_error (q : Question) (e : Err)
    (h : buildQuestionDTO q = .error e) : e = .InternalError := by
  unfold buildQuestionDTO at h
  split at h
  · simp at h
  · split at h
    · simp at h
    · simp only [Except.error.injEq] at h
      exact h.symm

theorem buildQuestionDTOs_error (qs : List Question) : ∀ e : Err,
    buildQuestionDTOs qs = .error e → e = .InternalError := by
  induction qs with
  | nil => intro e h; simp [buildQuestionDTOs] at h
  | cons q qs ih =>
    intro e h
    simp only [buildQuestionDTOs] at h
    cases h1 : buildQuestionDTO q with
    | ok d =>
      rw [h1] at h
      cases h2 : buildQuestionDTOs qs with
      | ok ds => rw [h2] at h; simp at h
      | error e2 =>
        rw [h2] at h
        simp only [Except.error.injEq] at h
        rw [← h]
        exact ih e2 h2
    | error e1 =>
      rw [h1] at h
      simp only [Except.error.injEq] at h
      rw [← h]
      exact buildQuestionDTO_error q e1 h1

theorem echoOptions_error (o : Str) (e : Err) (h : echoOptions o = .error e) :
    e = .InternalError := by
  unfold echoOptions at h
  split at h
  · simp at h
  · split at h
    · simp at h
    · simp only [Except.error.injEq] at h
      exact h.symm

/-- A freshly dumped options column decodes without error, to the dumped
value. -/
theorem echoOptions_dumps (j : JVal) : echoOptions (JVal.dumps j) = .ok j := by
  unfold echoOptions
  rw [if_neg (dumps_ne_nil j), loads_dumps j]

/-- An error kind produced by the authorization layer. -/
def isAuthFailure : Err → Bool
  | .Unauthenticated => true
  | .Forbidden => true
  | _ => false

/-! ## Witness fixtures

A small concrete database: survey 1 ("Q1 Feedback", active) owned by user
5, with a choice question (id 1, order 5), a text question (id 2, order 1)
and one anonymous response. -/

def wOpts : JVal := .arr (.cons (.str "Yes".data) (.cons (.str "No".data) .nil))

def wSurvey : Survey := ⟨1, "Q1 Feedback".data, [], activeS, 0, 0, 5⟩

def wQ1 : Question :=
  ⟨1, 1, "single_choice".data, "Satisfied?".data, [], false, JVal.dumps wOpts, 5⟩

def wQ2 : Question := ⟨2, 1, "text".data, "Why?".data, [], true, JVal.dumps (.arr .nil), 1⟩

def wResp : Response := ⟨1, 1, none, JVal.dumps .null, 0⟩

def wStore : Store := ⟨[wSurvey], [wQ1, wQ2], [wResp], 3, 2⟩

/-- The same database without the response, so that deletion can succeed. -/
def wStoreNoResp : Store := ⟨[wSurvey], [wQ1, wQ2], [], 3, 2⟩

/-! ## C1 — ownership-based authorization on every owner-scoped operation -/

/-- C1: for every owner-scoped operation (get, update, delete survey;
create, update, delete question) on a survey `s` (for the question
operations: on a question whose parent survey is `s`), a caller with no
resolved identity receives `Unauthenticated`; a caller with a resolved
identity different from the owner receives the distinct `Forbidden` kind;
and with the owner's identity the operation is never rejected by the
authorization layer — it proceeds, and any failure it can still produce is
not an authorization error kind. -/
theorem owner_scoped_authorization
    (st : Store) (sid qid : Nat) (s : Survey) (q : Question)
    (usr : UpdateSurveyReq) (cqr : CreateQuestionReq) (uqr : UpdateQuestionReq) (now : Nat)
    (hs : findSurvey st sid = some s)
    (hq : findQuestion st qid = some q)
    (hqs : q.survey_id = sid) :
    (get_survey none sid st = .error .Unauthenticated ∧
     update_survey none sid usr now st = .error .Unauthenticated ∧
     delete_survey none sid st = .error .Unauthenticated ∧
     create_question none sid cqr st = .error .Unauthenticated ∧
     update_question none qid uqr st = .error .Unauthenticated ∧
     delete_question none qid st = .error .Unauthenticated) ∧
    (∀ u : Nat, u ≠ s.user_id →
      get_survey (some u) sid st = .error .Forbidden ∧
      update_survey (some u) sid usr now st = .error .Forbidden ∧
      delete_survey (some u) sid st = .error .Forbidden ∧
      create_question (some u) sid cqr st = .error .Forbidden ∧
      update_question (some u) qid uqr st = .error .Forbidden ∧
      delete_question (some u) qid st = .error .Forbidden) ∧
    ((∀ e, get_survey (some s.user_id) sid st = .error e → isAuthFailure e = false) ∧
     (∀ e, update_survey (some s.user_id) sid usr now st = .error e → isAuthFailure e = false) ∧
     (∀ e, delete_survey (some s.user_id) sid st = .error e → isAuthFailure e = false) ∧
     (∀ e, create_question (some s.user_id) sid cqr st = .error e → isAuthFailure e = false) ∧
     (∀ e, update_question (some s.user_id) qid uqr st = .error e → isAuthFailure e = false) ∧
     (∀ e, delete_question (some s.user_id) qid st = .error e → isAuthFailure e = false)) := by
  have hown : ¬ (s.user_id ≠ s.user_id) := fun hh => hh rfl
  refine ⟨⟨rfl, rfl, rfl, rfl, rfl, rfl⟩, ?_, ?_, ?_, ?_, ?_, ?_, ?_⟩
  · intro u hu
    have hcond : s.user_id ≠ u := fun hh => hu hh.symm
    refine ⟨?_, ?_, ?_, ?_, ?_, ?_⟩
    · simp [get_survey, hs, hcond]
    · simp [update_survey, hs, hcond]
    · simp [delete_survey, hs, hcond]
    · simp [create_question, hs, hcond]
    · simp [update_question, hq, hqs, hs, hcond]
    · simp [delete_question, hq, hqs, hs, hcond]
  · intro e he
    simp only [get_survey, hs, hown, if_false] at he
    cases hb : buildQuestionDTOs (surveyQuestions st sid) with
    | ok ds => rw [hb] at he; simp at he
    | error e2 =>
      rw [hb] at he
      simp only [Except.error.injEq] at he
      rw [← he, buildQuestionDTOs_error _ e2 hb]
      rfl
  · intro e he
    simp [update_survey, hs, hown] at he
  · intro e he
    simp only [delete_survey, hs, hown, if_false] at he
    cases hr : surveyHasResponses st sid with
    | false => rw [hr] at he; simp at he
    | true =>
      rw [hr] at he
      simp only [if_true, Except.error.injEq] at he
      rw [← he]
      rfl
  · intro e he
    simp [create_question, hs, hown, echoOptions_dumps] at he
  · intro e he
    simp only [update_question, hq, hqs, hs, hown, if_false] at he
    cases hf : echoOptions q.options with
    | ok fb =>
      rw [hf] at he
      simp [echoOptions_dumps] at he
    | error e2 =>
      rw [hf] at he
      simp only [Except.error.injEq] at he
      rw [← he, echoOptions_error _ e2 hf]
      rfl
  · intro e he
    simp [delete_question, hq, hqs, hs, hown] at he

/-- Witness for C1 at the concrete store: survey 1 is owned by user 5; an
unauthenticated GET receives `Unauthenticated`, user 6 receives
`Forbidden` on GET and on a question update, and the owner is never
rejected by the authorization layer. -/
theorem owner_scoped_authorization_witness :
    get_survey none 1 wStore = .error .Unauthenticated ∧
    get_survey (some 6) 1 wStore = .error .Forbidden ∧
    update_question (some 6) 1 ⟨none, none, none, none, none, none⟩ wStore =
      .error .Forbidden ∧
    (∀ e, get_survey (some 5) 1 wStore = .error e → isAuthFailure e = false) := by
  have h := owner_scoped_authorization wStore 1 1 wSurvey wQ1
    ⟨none, none, none⟩ ⟨"text".data, "T?".data, none, none, none, none⟩
    ⟨none, none, none, none, none, none⟩ 0 rfl rfl rfl
  exact ⟨h.1.1, (h.2.1 6 (by decide)).1, (h.2.1 6 (by decide)).2.2.2.2.1, h.2.2.1⟩

/-! ## C2, C3, C5 — response submission -/

/-- The store state a successful `submit_response` commits: the appended
response row and the bumped autoincrement counter. -/
def afterSubmit (st : Store) (sid : Nat) (caller : Option Nat) (payload : JVal)
    (now : Nat) : Store :=
  { st with
    responses := st.responses ++
      [⟨st.nextResponseId, sid, caller, JVal.dumps payload, now⟩]
    nextResponseId := st.nextResponseId + 1 }

/-- C2: submitting a response to an active survey requires no
authentication and no ownership: for every caller — including one with no
resolved identity — submission succeeds whenever the survey exists with
status `active`, and the stored row's `user_id` equals the caller identity
when one is resolved and is absent (`none`) otherwise. -/
theorem submit_response_requires_no_auth (st : Store) (sid : Nat) (s : Survey)
    (caller : Option Nat) (payload : JVal) (now : Nat)
    (hs : findSurvey st sid = some s) (ha : s.status = activeS) :
    submit_response caller sid payload now st =
      .ok (afterSubmit st sid caller payload now, st.nextResponseId) := by
  simp [submit_response, afterSubmit, hs, ha]

/-- Witness for C2: an anonymous submission to the active survey 1
succeeds and stores `user_id = none`. -/
theorem submit_response_requires_no_auth_witness :
    submit_response none 1 (.str "Yes".data) 7 wStore =
      .ok (afterSubmit wStore 1 none (.str "Yes".data) 7, 2) :=
  submit_response_requires_no_auth wStore 1 wSurvey none (.str "Yes".data) 7 rfl rfl

/-- C3: submitting to a survey whose status is not `active` fails with
`InvalidState` for every payload, valid or not.  In the source the 400 is
returned before any `db.session` call, so no Response row is created: in
the model an error result carries no store, mirroring that the transaction
never writes. -/
theorem submit_response_inactive (st : Store) (sid : Nat) (s : Survey)
    (caller : Option Nat) (payload : JVal) (now : Nat)
    (hs : findSurvey st sid = some s) (hna : s.status ≠ activeS) :
    submit_response caller sid payload now st = .error .InvalidState := by
  simp [submit_response, hs, hna]

/-- A closed survey for the `InvalidState` witness. -/
def wSurveyClosed : Survey := ⟨3, "Old poll".data, [], "closed".data, 0, 0, 5⟩

def wStoreClosed : Store := ⟨[wSurveyClosed], [], [], 1, 1⟩

/-- Witness for C3: submission to the closed survey 3 fails with
`InvalidState`. -/
theorem submit_response_inactive_witness :
    submit_response (some 9) 3 (.num 4) 7 wStoreClosed = .error .InvalidState :=
  submit_response_inactive wStoreClosed 3 wSurveyClosed (some 9) (.num 4) 7 rfl
    (by decide)

/-- C5: submitting any answers payload to an active survey succeeds
returning only the new Response's identifier, and fetching that identifier
retrieves answers equal to the submitted payload exactly — the round-trip
through the store's JSON text encoding loses nothing (`loads_dumps`).  The
last hypothesis is the primary-key invariant: every existing row's id is
below the autoincrement counter. -/
theorem submit_response_roundtrip (st : Store) (sid : Nat) (s : Survey)
    (caller : Option Nat) (payload : JVal) (now : Nat)
    (hs : findSurvey st sid = some s) (ha : s.status = activeS)
    (hinv : ∀ r ∈ st.responses, r.id < st.nextResponseId) :
    submit_response caller sid payload now st =
      .ok (afterSubmit st sid caller payload now, st.nextResponseId) ∧
    fetchResponseAnswers (afterSubmit st sid caller payload now) st.nextResponseId =
      some payload := by
  constructor
  · simp [submit_response, afterSubmit, hs, ha]
  · unfold fetchResponseAnswers findResponse afterSubmit
    rw [find?_append_fresh _ _ _
      (fun y hy => by have := hinv y hy; simp; omega) (by simp)]
    exact loads_dumps payload

/-- Witness for C5: an anonymous submission of a structured payload to the
active survey 1 gets id 2, and fetching id 2 returns the payload exactly. -/
theorem submit_response_roundtrip_witness :
    submit_response none 1 (.obj (.cons "1".data (.str "Yes".data) .nil)) 7 wStore =
      .ok (afterSubmit wStore 1 none (.obj (.cons "1".data (.str "Yes".data) .nil)) 7, 2) ∧
    fetchResponseAnswers
      (afterSubmit wStore 1 none (.obj (.cons "1".data (.str "Yes".data) .nil)) 7) 2 =
      some (.obj (.cons "1".data (.str "Yes".data) .nil)) :=
  submit_response_roundtrip wStore 1 wSurvey none
    (.obj (.cons "1".data (.str "Yes".data) .nil)) 7 rfl rfl
    (by intro r hr; simp [wStore] at hr; simp [hr, wResp, wStore])

/-! ## C4 — survey deletion and the missing response cascade

The spec claims deletion removes the survey with all its questions AND all
its responses.  In the source, `Survey.questions` carries
`cascade="all, delete-orphan"` but `Survey.responses` carries no delete
cascade, while `Response.survey_id` is `nullable=False`: deleting a survey
that has any response makes SQLAlchemy try to null the responses' foreign
key, the NOT NULL constraint rejects it, and the whole delete fails with an
unhandled `IntegrityError` (500) — the responses (and the survey) survive. -/

/-- C4 (code behavior at the failing input): deleting survey 1 — owned by
the caller, holding one stored response — fails with the integrity 500
instead of cascading, so nothing is removed and no subsequent lookup turns
`NotFound`; the same delete on the response-free copy of the store
succeeds and removes the survey together with its questions, showing the
question cascade alone works. -/
theorem delete_survey_with_responses_fails :
    delete_survey (some 5) 1 wStore = .error .InternalError ∧
    delete_survey (some 5) 1 wStoreNoResp = .ok (⟨[], [], [], 3, 2⟩, ()) :=
  ⟨rfl, rfl⟩

/-! ## C6 — question creation performs no validation -/

/-- Counterexample to C6 as stated: an owner-authorized `addQuestion` with
the choice-like type `single_choice` and an empty options list does NOT
fail with `ValidationError` — it succeeds (so in particular it is not the
claimed error), and the survey's question list is changed by the appended
question. -/
theorem create_question_empty_options_cex :
    create_question (some 5) 1
      ⟨"single_choice".data, "Pick one".data, none, none, some (.arr .nil), none⟩ wStore =
      .ok (⟨[wSurvey],
        [wQ1, wQ2, ⟨3, 1, "single_choice".data, "Pick one".data, [], false, "[]".data, 0⟩],
        [wResp], 4, 2⟩,
        ⟨3, "single_choice".data, "Pick one".data, [], false, .arr .nil, 0⟩) ∧
    (⟨[wSurvey],
        [wQ1, wQ2, ⟨3, 1, "single_choice".data, "Pick one".data, [], false, "[]".data, 0⟩],
        [wResp], 4, 2⟩ : Store).questions ≠ wStore.questions :=
  ⟨rfl, by decide⟩

/-- C6 amended: `create_question` performs no input validation at all.
Every owner-authorized request — whatever its type (recognized or not),
text (empty or not) and options (empty or not) — succeeds, appends exactly
one question holding the dumped options, and echoes it back. -/
theorem create_question_no_validation (st : Store) (sid : Nat) (s : Survey)
    (data : CreateQuestionReq) (hs : findSurvey st sid = some s) :
    create_question (some s.user_id) sid data st =
      .ok ({ st with
        questions := st.questions ++
          [⟨st.nextQuestionId, sid, data.type, data.text, data.description.getD [],
            data.required.getD false, JVal.dumps (data.options.getD (.arr .nil)),
            data.order.getD 0⟩]
        nextQuestionId := st.nextQuestionId + 1 },
        ⟨st.nextQuestionId, data.type, data.text, data.description.getD [],
          data.required.getD false, data.options.getD (.arr .nil),
          data.order.getD 0⟩) := by
  have hown : ¬ (s.user_id ≠ s.user_id) := fun hh => hh rfl
  simp [create_question, hs, hown, echoOptions_dumps]

/-- Witness for the amended C6: a question with an unrecognized type and
empty text is accepted as well. -/
theorem create_question_no_validation_witness :
    create_question (some 5) 1 ⟨"banana".data, [], none, none, none, none⟩ wStore =
      .ok ({ wStore with
        questions := wStore.questions ++
          [⟨3, 1, "banana".data, [], [], false, JVal.dumps (.arr .nil), 0⟩]
        nextQuestionId := 4 },
        ⟨3, "banana".data, [], [], false, .arr .nil, 0⟩) :=
  create_question_no_validation wStore 1 wSurvey
    ⟨"banana".data, [], none, none, none, none⟩ rfl

/-! ## C7 — the question ordering `get_survey` actually returns -/

theorem buildQuestionDTO_fields (q : Question) (d : QuestionDTO)
    (h : buildQuestionDTO q = .ok d) : d.id = q.id ∧ d.order = q.order := by
  unfold buildQuestionDTO at h
  split at h
  · simp only [Except.ok.injEq] at h
    rw [← h]
    exact ⟨rfl, rfl⟩
  · split at h
    · simp only [Except.ok.injEq] at h
      rw [← h]
      exact ⟨rfl, rfl⟩
    · simp at h

/-- Building the DTO list preserves each question's `(id, order)` pair in
sequence — in particular it performs no reordering. -/
theorem buildQuestionDTOs_keys (qs : List Question) : ∀ ds : List QuestionDTO,
    buildQuestionDTOs qs = .ok ds →
    ds.map (fun d => (d.id, d.order)) = qs.map (fun q => (q.id, q.order)) := by
  induction qs with
  | nil => intro ds h; simp [buildQuestionDTOs] at h; simp [← h]
  | cons q qs ih =>
    intro ds h
    simp only [buildQuestionDTOs] at h
    cases h1 : buildQuestionDTO q with
    | error e1 => rw [h1] at h; simp at h
    | ok d =>
      rw [h1] at h
      cases h2 : buildQuestionDTOs qs with
      | error e2 => rw [h2] at h; simp at h
      | ok ds2 =>
        rw [h2] at h
        simp only [Except.ok.injEq] at h
        obtain ⟨hid, hord⟩ := buildQuestionDTO_fields q d h1
        simp [← h, hid, hord, ih ds2 h2]

/-- Counterexample to C7 as stated: on the concrete store, the owner's
`get_survey` returns the two questions in insertion order — the question
with `order` 5 (id 1) before the question with `order` 1 (id 2) — a
sequence that is not sorted by `(order, id)` ascending. -/
theorem get_survey_not_sorted_cex :
    get_survey (some 5) 1 wStore = .ok ⟨1, "Q1 Feedback".data, [], activeS, 0, 0,
      [⟨1, "single_choice".data, "Satisfied?".data, [], false, 5, some wOpts⟩,
       ⟨2, "text".data, "Why?".data, [], true, 1, some (.arr .nil)⟩]⟩ ∧
    sortedByOrderId
      [⟨1, "single_choice".data, "Satisfied?".data, [], false, 5, some wOpts⟩,
       ⟨2, "text".data, "Why?".data, [], true, 1, some (.arr .nil)⟩] = false :=
  ⟨rfl, rfl⟩

/-- C7 amended: the question list `get_survey` returns is the survey's
questions in table insertion order (the `survey.questions` relationship
declares no `order_by`), with each question's `(id, order)` key preserved
in sequence — NOT sorted by `(order, id)` — and, the model being a pure
function of the store, repeated calls without intervening mutation return
the same sequence. -/
theorem get_survey_insertion_order (st : Store) (sid : Nat) (s : Survey)
    (ds : List QuestionDTO) (hs : findSurvey st sid = some s)
    (hb : buildQuestionDTOs (surveyQuestions st sid) = .ok ds) :
    get_survey (some s.user_id) sid st =
      .ok ⟨s.id, s.title, s.description, s.status, s.created_at, s.updated_at, ds⟩ ∧
    ds.map (fun d => (d.id, d.order)) =
      (surveyQuestions st sid).map (fun q => (q.id, q.order)) ∧
    get_survey (some s.user_id) sid st = get_survey (some s.user_id) sid st := by
  have hown : ¬ (s.user_id ≠ s.user_id) := fun hh => hh rfl
  exact ⟨by simp [get_survey, hs, hown, hb], buildQuestionDTOs_keys _ ds hb, rfl⟩

/-- Witness for the amended C7: on the concrete store the key sequence is
`[(1, 5), (2, 1)]`, the insertion order of the questions table. -/
theorem get_survey_insertion_order_witness :
    get_survey (some 5) 1 wStore = .ok ⟨1, "Q1 Feedback".data, [], activeS, 0, 0,
      [⟨1, "single_choice".data, "Satisfied?".data, [], false, 5, some wOpts⟩,
       ⟨2, "text".data, "Why?".data, [], true, 1, some (.arr .nil)⟩]⟩ ∧
    ([⟨1, "single_choice".data, "Satisfied?".data, [], false, 5, some wOpts⟩,
      ⟨2, "text".data, "Why?".data, [], true, 1, some (.arr .nil)⟩] :
        List QuestionDTO).map (fun d => (d.id, d.order)) =
      (surveyQuestions wStore 1).map (fun q => (q.id, q.order)) ∧
    get_survey (some 5) 1 wStore = get_survey (some 5) 1 wStore :=
  get_survey_insertion_order wStore 1 wSurvey
    [⟨1, "single_choice".data, "Satisfied?".data, [], false, 5, some wOpts⟩,
     ⟨2, "text".data, "Why?".data, [], true, 1, some (.arr .nil)⟩] rfl rfl

/-! ## C8 — no field validation on status or order -/

/-- Counterexample to C8 as stated: the owner sets survey 1's status to
`"bogus"` — a value outside `{draft, active, closed, archived}` — and the
update succeeds and persists it verbatim instead of failing with
`ValidationError`; likewise a question with order `-3` is accepted and
persisted. -/
theorem invalid_fields_accepted_cex :
    update_survey (some 5) 1 ⟨none, none, some "bogus".data⟩ 42 wStore =
      .ok (⟨[⟨1, "Q1 Feedback".data, [], "bogus".data, 0, 42, 5⟩],
        [wQ1, wQ2], [wResp], 3, 2⟩,
        ⟨1, "Q1 Feedback".data, [], "bogus".data, 42⟩) ∧
    ("bogus".data ≠ "draft".data ∧ "bogus".data ≠ "active".data ∧
     "bogus".data ≠ "closed".data ∧ "bogus".data ≠ "archived".data) ∧
    create_question (some 5) 1 ⟨"text".data, "Q".data, none, none, none, some (-3)⟩
      wStore =
      .ok (⟨[wSurvey],
        [wQ1, wQ2, ⟨3, 1, "text".data, "Q".data, [], false, "[]".data, -3⟩],
        [wResp], 4, 2⟩,
        ⟨3, "text".data, "Q".data, [], false, .arr .nil, -3⟩) :=
  ⟨rfl, by decide, rfl⟩

/-- C8 amended: neither entity performs field validation.  An
owner-authorized status update persists ANY status string verbatim, and
`create_question` accepts and persists ANY integer order (negative
included); nothing fails with `ValidationError` and nothing is left
unchanged. -/
theorem no_field_validation (st : Store) (sid : Nat) (s : Survey) (v ty txt : Str)
    (o : Int) (now : Nat) (hs : findSurvey st sid = some s) :
    update_survey (some s.user_id) sid ⟨none, none, some v⟩ now st =
      .ok ({ st with surveys := st.surveys.map (fun t =>
          if t.id == sid then { s with status := v, updated_at := now } else t) },
        ⟨s.id, s.title, s.description, v, now⟩) ∧
    create_question (some s.user_id) sid ⟨ty, txt, none, none, none, some o⟩ st =
      .ok ({ st with
        questions := st.questions ++
          [⟨st.nextQuestionId, sid, ty, txt, [], false, JVal.dumps (.arr .nil), o⟩]
        nextQuestionId := st.nextQuestionId + 1 },
        ⟨st.nextQuestionId, ty, txt, [], false, .arr .nil, o⟩) := by
  have hown : ¬ (s.user_id ≠ s.user_id) := fun hh => hh rfl
  constructor
  · simp [update_survey, hs, hown]
  · simp [create_question, hs, hown, echoOptions_dumps]

/-- Witness for the amended C8 at the concrete store, with status
`"weird"` and order `-7`. -/
theorem no_field_validation_witness :
    update_survey (some 5) 1 ⟨none, none, some "weird".data⟩ 9 wStore =
      .ok ({ wStore with surveys := wStore.surveys.map (fun t =>
          if t.id == 1 then { wSurvey with status := "weird".data, updated_at := 9 }
          else t) },
        ⟨1, "Q1 Feedback".data, [], "weird".data, 9⟩) ∧
    create_question (some 5) 1 ⟨"rating".data, "Rate".data, none, none, none, some (-7)⟩
      wStore =
      .ok ({ wStore with
        questions := wStore.questions ++
          [⟨3, 1, "rating".data, "Rate".data, [], false, JVal.dumps (.arr .nil), -7⟩]
        nextQuestionId := 4 },
        ⟨3, "rating".data, "Rate".data, [], false, .arr .nil, -7⟩) :=
  no_field_validation wStore 1 wSurvey "weird".data "rating".data "Rate".data (-7) 9 rfl

/-! ## C9 — partial question update: merge yes, re-validation no -/

/-- Counterexample to C9 as stated: the owner updates the `single_choice`
question 1 supplying an empty options list.  Were the merged result
re-validated against the type-dependent option-set rule, this would be
rejected; instead the update succeeds and persists the empty option set. -/
theorem update_question_no_revalidation_cex :
    update_question (some 5) 1 ⟨none, none, none, none, some (.arr .nil), none⟩ wStore =
      .ok (⟨[wSurvey],
        [⟨1, 1, "single_choice".data, "Satisfied?".data, [], false, "[]".data, 5⟩, wQ2],
        [wResp], 3, 2⟩,
        ⟨1, "single_choice".data, "Satisfied?".data, [], false, .arr .nil, 5⟩) :=
  rfl

/-- C9 amended: `update_question` merges each supplied field over the
existing value — every unsupplied field (including the options column,
hypothesis `hopts` stating it holds a dumped value, as every write leaves
it) retains its previous value — and the merged result is persisted as-is,
with no re-validation of any kind. -/
theorem update_question_merge (st : Store) (qid : Nat) (q : Question) (s : Survey)
    (data : UpdateQuestionReq) (j0 : JVal)
    (hq : findQuestion st qid = some q)
    (hs : findSurvey st q.survey_id = some s)
    (hopts : q.options = JVal.dumps j0) :
    update_question (some s.user_id) qid data st =
      .ok ({ st with questions := st.questions.map (fun t =>
          if t.id == qid then
            { q with
              type := data.type.getD q.type
              text := data.text.getD q.text
              description := data.description.getD q.description
              required := data.required.getD q.required
              options := JVal.dumps (data.options.getD j0)
              order := data.order.getD q.order }
          else t) },
        ⟨q.id, data.type.getD q.type, data.text.getD q.text,
          data.description.getD q.description, data.required.getD q.required,
          data.options.getD j0, data.order.getD q.order⟩) ∧
    (data.options = none → JVal.dumps (data.options.getD j0) = q.options) ∧
    ({ q with options := JVal.dumps j0 } : Question) = q := by
  have hown : ¬ (s.user_id ≠ s.user_id) := fun hh => hh rfl
  refine ⟨?_, ?_, ?_⟩
  · simp [update_question, hq, hs, hown, hopts, echoOptions_dumps]
  · intro h
    rw [h, Option.getD_none, ← hopts]
  · rw [← hopts]

/-- Witness for the amended C9: the empty partial update of question 1
persists the question unchanged (the replacement record equals `wQ1`) and
echoes its current state. -/
theorem update_question_merge_witness :
    update_question (some 5) 1 ⟨none, none, none, none, none, none⟩ wStore =
      .ok ({ wStore with questions := wStore.questions.map (fun t =>
          if t.id == 1 then
            { wQ1 with
              type := wQ1.type
              text := wQ1.text
              description := wQ1.description
              required := wQ1.required
              options := JVal.dumps wOpts
              order := wQ1.order }
          else t) },
        ⟨1, "single_choice".data, "Satisfied?".data, [], false, wOpts, 5⟩) ∧
    (JVal.dumps ((none : Option JVal).getD wOpts) = wQ1.options) ∧
    ({ wQ1 with options := JVal.dumps wOpts } : Question) = wQ1 := by
  have h := update_question_merge wStore 1 wQ1 wSurvey
    ⟨none, none, none, none, none, none⟩ wOpts rfl rfl rfl
  exact ⟨h.1, h.2.1 rfl, h.2.2⟩

/-! ## C10 — `updated_at` advances on every accepted survey update -/

/-- The element `find?` returns satisfies the predicate. -/
theorem find?_sat {α : Type} (p : α → Bool) (l : List α) (a : α)
    (h : l.find? p = some a) : p a = true := by
  induction l with
  | nil => simp at h
  | cons x l ih =>
    cases hx : p x with
    | true =>
      rw [List.find?_cons_of_pos _ hx] at h
      cases h
      exact hx
    | false =>
      rw [List.find?_cons_of_neg _ (by simp [hx])] at h
      exact ih h

/-- C10: an owner-authorized survey update whose body supplies no fields
leaves title, description, status and the owner reference unchanged — the
persisted row differs only in `updated_at`, which is set to the current
clock; the update touches no other survey; and (last conjunct) EVERY
accepted update call sets `updated_at := now`, whatever the body — not
only actual mutations of title/description/status. -/
theorem update_survey_empty_body (st : Store) (sid : Nat) (s : Survey) (now : Nat)
    (hs : findSurvey st sid = some s) :
    update_survey (some s.user_id) sid ⟨none, none, none⟩ now st =
      .ok ({ st with surveys := st.surveys.map (fun t =>
          if t.id == sid then { s with updated_at := now } else t) },
        ⟨s.id, s.title, s.description, s.status, now⟩) ∧
    findSurvey { st with surveys := st.surveys.map (fun t =>
          if t.id == sid then { s with updated_at := now } else t) } sid =
      some { s with updated_at := now } ∧
    (∀ oid, oid ≠ sid →
      findSurvey { st with surveys := st.surveys.map (fun t =>
          if t.id == sid then { s with updated_at := now } else t) } oid =
      findSurvey st oid) ∧
    (s.updated_at < now →
      s.updated_at < ({ s with updated_at := now } : Survey).updated_at) ∧
    (∀ data : UpdateSurveyReq, update_survey (some s.user_id) sid data now st =
      .ok ({ st with surveys := st.surveys.map (fun t =>
          if t.id == sid then
            { s with
              title := data.title.getD s.title
              description := data.description.getD s.description
              status := data.status.getD s.status
              updated_at := now }
          else t) },
        ⟨s.id, data.title.getD s.title, data.description.getD s.description,
          data.status.getD s.status, now⟩)) := by
  have hown : ¬ (s.user_id ≠ s.user_id) := fun hh => hh rfl
  have hs2 : st.surveys.find? (fun t => t.id == sid) = some s := hs
  have hsid : s.id = sid := by
    have := find?_sat (fun t => t.id == sid) st.surveys s hs2
    simpa using this
  refine ⟨?_, ?_, ?_, ?_, ?_⟩
  · simp [update_survey, hs, hown]
  · exact find?_map_update _ _ _ _
      (fun t ht => by simp [ht]) (fun t ht => by simp [ht]) (by simp [hsid]) s hs
  · intro oid hne
    refine find?_map_frame _ _ _ ?_ ?_
    · intro t
      by_cases hc : (t.id == sid) = true
      · have hc2 : t.id = sid := by simpa using hc
        simp only [hc, if_true]
        show (s.id == oid) = (t.id == oid)
        rw [hsid, hc2]
      · simp only [Bool.not_eq_true] at hc
        simp [hc]
    · intro t ht
      have ht2 : t.id = oid := by simpa using ht
      have : (t.id == sid) = false := by simp [ht2, hne]
      simp [this]
  · intro h
    simpa using h
  · intro data
    simp [update_survey, hs, hown]

/-- Witness for C10 at the concrete store with clock 42. -/
theorem update_survey_empty_body_witness :
    update_survey (some 5) 1 ⟨none, none, none⟩ 42 wStore =
      .ok ({ wStore with surveys := wStore.surveys.map (fun t =>
          if t.id == 1 then { wSurvey with updated_at := 42 } else t) },
        ⟨1, "Q1 Feedback".data, [], activeS, 42⟩) ∧
    findSurvey { wStore with surveys := wStore.surveys.map (fun t =>
          if t.id == 1 then { wSurvey with updated_at := 42 } else t) } 1 =
      some { wSurvey with updated_at := 42 } ∧
    wSurvey.updated_at < ({ wSurvey with updated_at := 42 } : Survey).updated_at := by
  have h := update_survey_empty_body wStore 1 wSurvey 42 rfl
  exact ⟨h.1, h.2.1, h.2.2.2.1 (by decide)⟩
